import Mathlib

/-!
Verification of the `qk` concurrent command-runner (Go) against its design
specification, via a shallow embedding of the runner's pure logic in Lean.

The repository contains two snapshots of the `views` package: the file
`views/commandRunner.go` (called the `v1` variant below) and a later variant
(called the `v008` variant below).  Where their logic coincides a single
definition is used; where they differ both are embedded, suffixed `_v1` and
`_v008`.
-/

namespace QK

/-! ## utils: generic list combinators (utils/helpers.go, `Some` / `All`) -/

/-- `utils.Some`: does some element satisfy the predicate? (helpers.go) -/
def Some {α : Type} : List α → (α → Bool) → Bool
  | [], _ => false
  | t :: ts, pred => if pred t then true else Some ts pred

/-- `utils.All`: do all elements satisfy the predicate? (helpers.go) -/
def All {α : Type} : List α → (α → Bool) → Bool
  | [], _ => true
  | t :: ts, pred => if pred t then All ts pred else false

theorem Some_eq_any {α : Type} (l : List α) (p : α → Bool) : Some l p = l.any p := by
  induction l with
  | nil => rfl
  | cons t ts ih =>
    simp only [Some, List.any_cons]
    by_cases h : p t = true <;> simp [h, ih]

theorem All_eq_all {α : Type} (l : List α) (p : α → Bool) : All l p = l.all p := by
  induction l with
  | nil => rfl
  | cons t ts ih =>
    simp only [All, List.all_cons]
    by_cases h : p t = true <;> simp [h, ih]

/-! ## Wait-result classification (commandRunner.go, `wasKilledBySignal` and the
`commandFinishedMessage` branch of `Update`)

A Go `error` returned from `exec.Cmd.Wait` (or from the pipe/start calls) is
modelled by `GoErr`.  An `exec.ExitError` carries the platform wait status
(`Sys()`, which may fail to cast to `syscall.WaitStatus`) and the
`ProcessState` exit code (absent when `ProcessState` is nil). -/

/-- `syscall.WaitStatus`, reduced to the fields `wasKilledBySignal` inspects:
whether `Signaled()` holds and which signal `Signal()` reports. -/
structure WaitStatus where
  signaled : Bool
  signal : Nat
deriving DecidableEq, Repr

/-- A Go error as seen by the runner: either an `exec.ExitError` (with optional
wait status from `Sys()` and optional `ProcessState` exit code), or any other
error (spawn failure, pipe failure, `context.Canceled`, ...). -/
inductive GoErr where
  | exitError (sys : Option WaitStatus) (processStateCode : Option Int)
  | otherErr
deriving DecidableEq, Repr

/-- `wasKilledBySignal` (commandRunner.go:188-216): returns whether the error
shows death by a signal, and the signal observed.  `none` stands for a nil
error.  A non-`ExitError` never counts; for an `ExitError` the wait status's
`Signaled()` bit decides, with a fallback on `ExitCode() == -1` when `Sys()`
is not a `syscall.WaitStatus`. -/
def wasKilledBySignal : Option GoErr → Bool × Nat
  | none => (false, 0)
  | some (.exitError (some status) _) =>
      if status.signaled then (true, status.signal) else (false, 0)
  | some (.exitError none (some code)) =>
      if code = -1 then (true, 0) else (false, 0)
  | some (.exitError none none) => (false, 0)
  | some .otherErr => (false, 0)

/-- Status classification performed by the `commandFinishedMessage` branch of
`Update` (commandRunner.go:366-376): start from `"finished"`; a non-nil error
gives `"failed"`, refined to `"exited"` when `wasKilledBySignal` holds. -/
def classifyStatus (err : Option GoErr) : String :=
  match err with
  | none => "finished"
  | some e =>
      if (wasKilledBySignal (some e)).1 then "exited" else "failed"

/-! ## The run model and the `commandFinishedMessage` handler

The registry state relevant to completion/success is the grid of unit
statuses: one list of status strings per project (`m.projects[i].Scripts[j].Status`). -/

/-- The status grid: `statuses[i][j]` is project `i`'s `j`-th unit's status. -/
abbrev StatusGrid := List (List String)

/-- `m.projects[i].Scripts[j].Status = status` as a pure update.  Out-of-range
indices leave the grid unchanged (the Go code never sends such a message). -/
def setStatus (ps : StatusGrid) (i j : Nat) (status : String) : StatusGrid :=
  ps.set i ((ps.getD i []).set j status)

/-- The `utils.Some`-over-`utils.Some` test for a still-running unit
(commandRunner.go:382-386). -/
def anyRunning (ps : StatusGrid) : Bool :=
  Some ps (fun scripts => Some scripts (fun s => s = "running"))

/-- The `utils.Some`-over-`utils.Some` test for a failed unit
(commandRunner.go:391-395). -/
def anyFailed (ps : StatusGrid) : Bool :=
  Some ps (fun scripts => Some scripts (fun s => s = "failed"))

/-- One `commandFinishedMessage{i, j, err}` event. -/
structure FinishedMsg where
  index : Nat
  scriptIndex : Nat
  err : Option GoErr
deriving DecidableEq, Repr

/-- Result of one step of the `commandFinishedMessage` handler: the new status
grid, the new `m.done` flag, and the payload of the `programDoneMessage`
emitted via `done(success)`, if any. -/
structure FinishedStep where
  grid : StatusGrid
  doneFlag : Bool
  emitted : Option Bool
deriving Repr

/-- The `commandFinishedMessage` branch of `Update` (commandRunner.go:366-403):
classify the error, write the unit's status, set `m.done := true`, reset it to
`false` and return early if any unit is still `"running"`, otherwise compute
`success` as the absence of a `"failed"` unit and emit `done(success)`. -/
def updateFinished (ps : StatusGrid) (msg : FinishedMsg) : FinishedStep :=
  let status := classifyStatus msg.err
  let ps' := setStatus ps msg.index msg.scriptIndex status
  -- success := true; m.done := true
  if anyRunning ps' then
    -- m.done = false; return m, nil
    { grid := ps', doneFlag := false, emitted := none }
  else
    let success := !anyFailed ps'
    -- the `if !m.done` branch is dead here: m.done is still true
    { grid := ps', doneFlag := true, emitted := some success }

/-- A unit status is terminal when it is one of the three classifier outputs. -/
def isTerminal (s : String) : Bool :=
  s = "finished" || s = "failed" || s = "exited"

/-- All units of the grid are terminal. -/
def allTerminal (ps : StatusGrid) : Bool :=
  All ps (fun scripts => All scripts (fun s => isTerminal s))

/-- C1: whenever the `commandFinishedMessage` handler emits the final done
event, the emitted success value is true iff no unit of the resulting state is
`"failed"`, and the resulting state has no unit still `"running"` (all units
terminal); in particular `"exited"` units do not by themselves make the run
unsuccessful. -/
theorem C1_success_fold (ps : StatusGrid) (msg : FinishedMsg) (s : Bool)
    (h : (updateFinished ps msg).emitted = some s) :
    (s = true ↔ anyFailed (updateFinished ps msg).grid = false) ∧
    anyRunning (updateFinished ps msg).grid = false := by
  set q := setStatus ps msg.index msg.scriptIndex (classifyStatus msg.err) with hq
  have hstep : updateFinished ps msg =
      if anyRunning q then { grid := q, doneFlag := false, emitted := none }
      else { grid := q, doneFlag := true, emitted := some (!anyFailed q) } := rfl
  by_cases hr : anyRunning q = true
  · rw [hstep, if_pos hr] at h
    exact Option.noConfusion h
  · have hr' : anyRunning q = false := by simpa using hr
    rw [hstep, if_neg hr] at h ⊢
    simp only [Option.some.injEq] at h
    subst h
    refine ⟨?_, hr'⟩
    cases hf : anyFailed q <;> simp [hf]

/-- Witness for `C1_success_fold`: a concrete two-unit state where the second
unit is `"exited"` and the first just finished with a nil error; the emitted
success value is `true`. -/
theorem C1_success_fold_witness :
    ((updateFinished [["running"], ["exited"]] ⟨0, 0, none⟩).emitted = some true) ∧
    ((true = true ↔ anyFailed (updateFinished [["running"], ["exited"]] ⟨0, 0, none⟩).grid = false) ∧
      anyRunning (updateFinished [["running"], ["exited"]] ⟨0, 0, none⟩).grid = false) :=
  ⟨by decide, C1_success_fold [["running"], ["exited"]] ⟨0, 0, none⟩ true (by decide)⟩

/-! ## Processing a whole sequence of outcome events (claim C2) -/

/-- The grid written by one `commandFinishedMessage`; both branches of the
handler write the same grid. -/
def stepGrid (ps : StatusGrid) (msg : FinishedMsg) : StatusGrid :=
  setStatus ps msg.index msg.scriptIndex (classifyStatus msg.err)

/-- The grid after a sequence of outcome events, in arrival order. -/
def applyGrid (ps : StatusGrid) (msgs : List FinishedMsg) : StatusGrid :=
  msgs.foldl stepGrid ps

/-- Folding a whole sequence of `commandFinishedMessage`s through `Update`:
the final grid, the final `m.done` flag, and the payload emitted by the last
handled event (each handler invocation recomputes `m.done` and decides afresh
whether to emit). -/
def processEvents (ps : StatusGrid) (msgs : List FinishedMsg) : FinishedStep :=
  msgs.foldl (fun st msg => updateFinished st.grid msg)
    { grid := ps, doneFlag := false, emitted := none }

/-- A well-formed grid: every status is `"running"` or terminal, as holds from
`AddCommand` (which initialises every unit to `"running"`) onwards. -/
def wfGrid (ps : StatusGrid) : Prop :=
  ∀ row ∈ ps, ∀ s ∈ row, s = "running" ∨ isTerminal s = true

/-- The unit at `(i, j)` is `"running"` (false when out of range). -/
def isRunningAt (ps : StatusGrid) (i j : Nat) : Bool :=
  (ps.getD i []).getD j "" = "running"

theorem updateFinished_grid (ps : StatusGrid) (msg : FinishedMsg) :
    (updateFinished ps msg).grid = stepGrid ps msg := by
  unfold updateFinished stepGrid
  by_cases hr : anyRunning (setStatus ps msg.index msg.scriptIndex (classifyStatus msg.err)) = true <;>
    simp [hr]

theorem updateFinished_doneFlag (ps : StatusGrid) (msg : FinishedMsg) :
    (updateFinished ps msg).doneFlag = !anyRunning (stepGrid ps msg) := by
  unfold updateFinished stepGrid
  by_cases hr : anyRunning (setStatus ps msg.index msg.scriptIndex (classifyStatus msg.err)) = true <;>
    simp [hr]

theorem updateFinished_emitted_isSome (ps : StatusGrid) (msg : FinishedMsg) :
    (updateFinished ps msg).emitted.isSome = (updateFinished ps msg).doneFlag := by
  unfold updateFinished
  by_cases hr : anyRunning (setStatus ps msg.index msg.scriptIndex (classifyStatus msg.err)) = true <;>
    simp [hr]

theorem processEvents_cons (ps : StatusGrid) (m : FinishedMsg) (rest : List FinishedMsg)
    (hrest : rest ≠ []) :
    processEvents ps (m :: rest) = processEvents (stepGrid ps m) rest := by
  cases rest with
  | nil => exact absurd rfl hrest
  | cons r rr =>
    show List.foldl _ (updateFinished ps m) (r :: rr) = List.foldl _ _ (r :: rr)
    simp only [List.foldl_cons]
    rw [updateFinished_grid]

theorem processEvents_grid (ps : StatusGrid) (msgs : List FinishedMsg) :
    (processEvents ps msgs).grid = applyGrid ps msgs := by
  induction msgs generalizing ps with
  | nil => rfl
  | cons m rest ih =>
    cases rest with
    | nil => exact updateFinished_grid ps m
    | cons r rr =>
      rw [processEvents_cons ps m (r :: rr) (by simp)]
      rw [ih]
      rfl

theorem processEvents_doneFlag (ps : StatusGrid) (msgs : List FinishedMsg) (h : msgs ≠ []) :
    (processEvents ps msgs).doneFlag = !anyRunning (applyGrid ps msgs) := by
  induction msgs generalizing ps with
  | nil => exact absurd rfl h
  | cons m rest ih =>
    cases rest with
    | nil =>
      show (updateFinished ps m).doneFlag = !anyRunning (applyGrid ps [m])
      rw [updateFinished_doneFlag]
      rfl
    | cons r rr =>
      rw [processEvents_cons ps m (r :: rr) (by simp)]
      rw [ih _ (by simp)]
      rfl

theorem processEvents_emitted (ps : StatusGrid) (msgs : List FinishedMsg) (h : msgs ≠ []) :
    (processEvents ps msgs).emitted.isSome = (processEvents ps msgs).doneFlag := by
  induction msgs generalizing ps with
  | nil => exact absurd rfl h
  | cons m rest ih =>
    cases rest with
    | nil => exact updateFinished_emitted_isSome ps m
    | cons r rr =>
      rw [processEvents_cons ps m (r :: rr) (by simp)]
      exact ih _ (by simp)

/-- Every status the classifier can produce is terminal (and in particular is
never `"running"`). -/
theorem isTerminal_classifyStatus (err : Option GoErr) :
    isTerminal (classifyStatus err) = true := by
  cases err with
  | none => decide
  | some e =>
    show isTerminal (if (wasKilledBySignal (some e)).1 then "exited" else "failed") = true
    by_cases hk : (wasKilledBySignal (some e)).1 = true <;> simp [hk] <;> decide

theorem classifyStatus_ne_running (err : Option GoErr) :
    classifyStatus err ≠ "running" := by
  intro hcontra
  have := isTerminal_classifyStatus err
  rw [hcontra] at this
  exact absurd this (by decide)

theorem isRunningAt_stepGrid (ps : StatusGrid) (m : FinishedMsg) (i j : Nat) :
    isRunningAt (stepGrid ps m) i j =
      (isRunningAt ps i j && !(m.index == i && m.scriptIndex == j)) := by
  unfold isRunningAt stepGrid setStatus
  by_cases hi : m.index = i
  · subst hi
    by_cases hlen : m.index < ps.length
    · have hrow : (ps.set m.index ((ps.getD m.index []).set m.scriptIndex
          (classifyStatus m.err))).getD m.index []
          = (ps.getD m.index []).set m.scriptIndex (classifyStatus m.err) := by
        rw [List.getD_eq_getElem?_getD, List.getElem?_set]
        simp [hlen, List.getD_eq_getElem?_getD]
      rw [hrow]
      by_cases hj : m.scriptIndex = j
      · subst hj
        by_cases hjlen : m.scriptIndex < (ps.getD m.index []).length
        · rw [List.getD_eq_getElem?_getD, List.getElem?_set]
          simp only [if_pos rfl, if_pos hjlen, Option.getD_some]
          simp [classifyStatus_ne_running m.err]
        · rw [List.set_eq_of_length_le (Nat.le_of_not_lt hjlen)]
          have : (ps.getD m.index []).getD m.scriptIndex "" = "" := by
            rw [List.getD_eq_getElem?_getD, List.getElem?_eq_none (Nat.le_of_not_lt hjlen)]
            rfl
          rw [this]
          simp
      · rw [List.getD_eq_getElem?_getD, List.getElem?_set, if_neg hj,
          ← List.getD_eq_getElem?_getD]
        simp [hj]
    · rw [List.set_eq_of_length_le (Nat.le_of_not_lt hlen)]
      have : (ps.getD m.index []).getD j "" = "" := by
        have hnone : ps.getD m.index [] = [] := by
          rw [List.getD_eq_getElem?_getD, List.getElem?_eq_none (Nat.le_of_not_lt hlen)]
          rfl
        rw [hnone]
        rfl
      rw [this]
      simp
  · have hrow : (ps.set m.index ((ps.getD m.index []).set m.scriptIndex
        (classifyStatus m.err))).getD i []
        = ps.getD i [] := by
      rw [List.getD_eq_getElem?_getD, List.getElem?_set, if_neg hi,
        ← List.getD_eq_getElem?_getD]
    rw [hrow]
    simp [hi]

theorem isRunningAt_applyGrid (ps : StatusGrid) (msgs : List FinishedMsg) (i j : Nat) :
    isRunningAt (applyGrid ps msgs) i j =
      (isRunningAt ps i j && msgs.all (fun m => !(m.index == i && m.scriptIndex == j))) := by
  induction msgs generalizing ps with
  | nil => simp [applyGrid]
  | cons m rest ih =>
    show isRunningAt (applyGrid (stepGrid ps m) rest) i j = _
    rw [ih, isRunningAt_stepGrid]
    simp [Bool.and_assoc]

theorem anyRunning_iff_exists (ps : StatusGrid) :
    anyRunning ps = true ↔ ∃ i j, isRunningAt ps i j = true := by
  unfold anyRunning
  rw [Some_eq_any]
  simp only [List.any_eq_true]
  constructor
  · rintro ⟨row, hrow, hany⟩
    rw [Some_eq_any] at hany
    rw [List.any_eq_true] at hany
    obtain ⟨s, hs, hrun⟩ := hany
    obtain ⟨i, hi⟩ := List.mem_iff_getElem?.mp hrow
    obtain ⟨j, hj⟩ := List.mem_iff_getElem?.mp hs
    refine ⟨i, j, ?_⟩
    unfold isRunningAt
    rw [List.getD_eq_getElem?_getD ps i [], hi]
    show decide (row.getD j "" = "running") = true
    rw [List.getD_eq_getElem?_getD row j "", hj]
    simpa using hrun
  · rintro ⟨i, j, hij⟩
    unfold isRunningAt at hij
    have hij' : (ps.getD i []).getD j "" = "running" := of_decide_eq_true hij
    rw [List.getD_eq_getElem?_getD ps i []] at hij'
    cases hrow : ps[i]? with
    | none =>
      rw [hrow] at hij'
      simp only [Option.getD_none, List.getD_nil] at hij'
      exact absurd hij' (by decide)
    | some row =>
      rw [hrow] at hij'
      simp only [Option.getD_some] at hij'
      rw [List.getD_eq_getElem?_getD row j ""] at hij'
      cases hcell : row[j]? with
      | none =>
        rw [hcell] at hij'
        simp only [Option.getD_none] at hij'
        exact absurd hij' (by decide)
      | some s =>
        rw [hcell] at hij'
        simp only [Option.getD_some] at hij'
        refine ⟨row, List.mem_iff_getElem?.mpr ⟨i, hrow⟩, ?_⟩
        rw [Some_eq_any, List.any_eq_true]
        exact ⟨s, List.mem_iff_getElem?.mpr ⟨j, hcell⟩, decide_eq_true hij'⟩

theorem all_eq_of_perm {α : Type} {l l' : List α} (h : l.Perm l') (p : α → Bool) :
    l.all p = l'.all p := by
  rw [Bool.eq_iff_iff, List.all_eq_true, List.all_eq_true]
  constructor
  · intro hall x hx
    exact hall x (h.mem_iff.mpr hx)
  · intro hall x hx
    exact hall x (h.mem_iff.mp hx)

theorem anyRunning_applyGrid_perm (ps : StatusGrid) {msgs msgs' : List FinishedMsg}
    (h : msgs.Perm msgs') :
    anyRunning (applyGrid ps msgs) = anyRunning (applyGrid ps msgs') := by
  rw [Bool.eq_iff_iff, anyRunning_iff_exists, anyRunning_iff_exists]
  constructor <;> rintro ⟨i, j, hij⟩ <;> refine ⟨i, j, ?_⟩ <;>
    rw [isRunningAt_applyGrid] at * <;>
    [rw [← all_eq_of_perm h]; rw [all_eq_of_perm h]] <;> exact hij

theorem wfGrid_stepGrid {ps : StatusGrid} (m : FinishedMsg) (h : wfGrid ps) :
    wfGrid (stepGrid ps m) := by
  intro row hrow s hs
  rcases List.mem_or_eq_of_mem_set hrow with hmem | heq
  · exact h row hmem s hs
  · subst heq
    rcases List.mem_or_eq_of_mem_set hs with hmem | heq
    · cases hrowD : ps[m.index]? with
      | none =>
        rw [List.getD_eq_getElem?_getD, hrowD] at hmem
        exact absurd hmem (List.not_mem_nil s)
      | some origRow =>
        refine h origRow (List.mem_iff_getElem?.mpr ⟨m.index, hrowD⟩) s ?_
        rwa [List.getD_eq_getElem?_getD, hrowD] at hmem
    · subst heq
      exact Or.inr (isTerminal_classifyStatus m.err)

theorem wfGrid_applyGrid {ps : StatusGrid} (msgs : List FinishedMsg) (h : wfGrid ps) :
    wfGrid (applyGrid ps msgs) := by
  induction msgs generalizing ps with
  | nil => exact h
  | cons m rest ih => exact ih (wfGrid_stepGrid m h)

theorem not_anyRunning_iff_allTerminal {ps : StatusGrid} (h : wfGrid ps) :
    anyRunning ps = false ↔ allTerminal ps = true := by
  unfold anyRunning allTerminal
  rw [Some_eq_any, All_eq_all]
  constructor
  · intro hno
    rw [List.all_eq_true]
    intro row hrow
    rw [All_eq_all, List.all_eq_true]
    intro s hs
    rcases h row hrow s hs with hrun | hterm
    · exfalso
      have : (ps.any fun scripts => Some scripts fun s => decide (s = "running")) = true := by
        rw [List.any_eq_true]
        refine ⟨row, hrow, ?_⟩
        rw [Some_eq_any, List.any_eq_true]
        exact ⟨s, hs, by simp [hrun]⟩
      rw [this] at hno
      exact Bool.noConfusion hno
    · exact hterm
  · intro hall
    rw [List.all_eq_true] at hall
    cases hany : ps.any fun scripts => Some scripts fun s => decide (s = "running") with
    | false => rfl
    | true =>
      exfalso
      rw [List.any_eq_true] at hany
      obtain ⟨row, hrow, hsome⟩ := hany
      rw [Some_eq_any, List.any_eq_true] at hsome
      obtain ⟨s, hs, hrun⟩ := hsome
      have hterm := hall row hrow
      rw [All_eq_all, List.all_eq_true] at hterm
      have := hterm s hs
      rw [of_decide_eq_true hrun] at this
      exact absurd this (by decide)

/-- C2: after processing a nonempty sequence of outcome events, the run is
marked done iff every unit's status on the resulting grid is terminal, the
final done event is emitted iff the run is marked done, and the done decision
is identical for every permutation of the event arrival order. -/
theorem C2_completion_equivalence (ps : StatusGrid) (msgs msgs' : List FinishedMsg)
    (hwf : wfGrid ps) (hne : msgs ≠ []) (hperm : msgs.Perm msgs') :
    ((processEvents ps msgs).doneFlag = true ↔ allTerminal (processEvents ps msgs).grid = true) ∧
    ((processEvents ps msgs).emitted.isSome = true ↔ (processEvents ps msgs).doneFlag = true) ∧
    (processEvents ps msgs').doneFlag = (processEvents ps msgs).doneFlag := by
  have hne' : msgs' ≠ [] := by
    intro hcontra
    subst hcontra
    exact hne (List.Perm.eq_nil hperm)
  have hwf' : wfGrid (applyGrid ps msgs) := wfGrid_applyGrid msgs hwf
  refine ⟨?_, ?_, ?_⟩
  · rw [processEvents_doneFlag ps msgs hne, processEvents_grid]
    rw [← not_anyRunning_iff_allTerminal hwf']
    cases anyRunning (applyGrid ps msgs) <;> simp
  · rw [processEvents_emitted ps msgs hne]
  · rw [processEvents_doneFlag ps msgs hne, processEvents_doneFlag ps msgs' hne',
      anyRunning_applyGrid_perm ps hperm]

/-- Witness for `C2_completion_equivalence`: a two-unit run receiving both
outcome events in the two possible orders. -/
theorem C2_completion_equivalence_witness :
    ((processEvents [["running", "running"]]
        [⟨0, 0, none⟩, ⟨0, 1, some .otherErr⟩]).doneFlag = true ↔
      allTerminal (processEvents [["running", "running"]]
        [⟨0, 0, none⟩, ⟨0, 1, some .otherErr⟩]).grid = true) ∧
    ((processEvents [["running", "running"]]
        [⟨0, 0, none⟩, ⟨0, 1, some .otherErr⟩]).emitted.isSome = true ↔
      (processEvents [["running", "running"]]
        [⟨0, 0, none⟩, ⟨0, 1, some .otherErr⟩]).doneFlag = true) ∧
    (processEvents [["running", "running"]]
        [⟨0, 1, some .otherErr⟩, ⟨0, 0, none⟩]).doneFlag =
      (processEvents [["running", "running"]]
        [⟨0, 0, none⟩, ⟨0, 1, some .otherErr⟩]).doneFlag :=
  C2_completion_equivalence [["running", "running"]]
    [⟨0, 0, none⟩, ⟨0, 1, some .otherErr⟩] [⟨0, 1, some .otherErr⟩, ⟨0, 0, none⟩]
    (by unfold wfGrid; decide) (by decide) (by decide)

/-! ## Claim C3: outcome classification -/

/-- A terminal outcome together with the ground truth of whether the signal
(if any) that ended the process was sent by the engine's own cancellation
sequence.  The classifier sees only `err`; `engineSentSignal` is the fact the
claim refers to and is invisible to the code. -/
structure TerminationScenario where
  err : Option GoErr
  engineSentSignal : Bool
deriving DecidableEq, Repr

/-- A process that died of a segmentation fault (signal 11), which nobody in
the engine sent. -/
def selfSignaledScenario : TerminationScenario :=
  { err := some (.exitError (some { signaled := true, signal := 11 }) (some (-1)))
    engineSentSignal := false }

/-- C3 counterexample: a process terminated by a signal the engine did NOT
send (here a segmentation fault) is still classified `"exited"`:
`wasKilledBySignal` looks only at the wait-status `Signaled()` bit and has no
way to know who sent the signal, refuting the claim that `"exited"` arises
only for engine-sent signals. -/
theorem C3_counterexample :
    classifyStatus selfSignaledScenario.err = "exited" ∧
    selfSignaledScenario.engineSentSignal = false := by
  constructor <;> rfl

/-- C3 amended: the classification is a trichotomy on the wait result alone:
nil error ↔ `"finished"`; wait-status showing death by a signal (any sender)
↔ `"exited"`; any other non-nil error (non-zero exit, spawn error) ↔
`"failed"`. -/
theorem C3_classification (err : Option GoErr) :
    (classifyStatus err = "finished" ↔ err = none) ∧
    (classifyStatus err = "exited" ↔ (wasKilledBySignal err).1 = true) ∧
    (classifyStatus err = "failed" ↔ (err ≠ none ∧ (wasKilledBySignal err).1 = false)) := by
  cases err with
  | none =>
    refine ⟨by simp [classifyStatus], ?_, ?_⟩
    · constructor
      · intro h
        exact absurd h (by decide)
      · intro h
        exact absurd h (by decide)
    · constructor
      · intro h
        exact absurd h (by decide)
      · rintro ⟨h, -⟩
        exact absurd rfl h
  | some e =>
    by_cases hk : (wasKilledBySignal (some e)).1 = true
    · have hcl : classifyStatus (some e) = "exited" := by
        simp only [classifyStatus]
        rw [if_pos hk]
      rw [hcl]
      refine ⟨?_, ?_, ?_⟩
      · constructor
        · intro h
          exact absurd h (by decide)
        · intro h
          exact Option.noConfusion h
      · simp [hk]
      · constructor
        · intro h
          exact absurd h (by decide)
        · rintro ⟨-, hfalse⟩
          rw [hk] at hfalse
          exact Bool.noConfusion hfalse
    · have hk' : (wasKilledBySignal (some e)).1 = false := by simpa using hk
      have hcl : classifyStatus (some e) = "failed" := by
        simp only [classifyStatus]
        rw [if_neg hk]
      rw [hcl]
      refine ⟨?_, ?_, ?_⟩
      · constructor
        · intro h
          exact absurd h (by decide)
        · intro h
          exact Option.noConfusion h
      · constructor
        · intro h
          exact absurd h (by decide)
        · intro h
          rw [h] at hk'
          exact Bool.noConfusion hk'
      · simp [hk']

/-! ## Claims C5 and C7: command registration

`AddCommand` is modelled with explicit allocation so that pointer sharing is
observable: unit ids index into `units`, the store of per-unit statuses. -/

/-- The registry with explicit unit allocation: `units` maps a unit id (the
allocation index, standing for a `*Command` pointer) to its status; each
project's `Scripts` list holds unit ids. -/
structure RunnerModel where
  nextId : Nat
  units : List String
  projects : List (List Nat)
deriving DecidableEq, Repr

/-- `AddCommand` of commandRunner.go (lines 301-308): ONE `Command` is
allocated, with status `"running"`, and the SAME pointer is appended to every
project's `Scripts` list. -/
def addCommand_v1 (m : RunnerModel) : RunnerModel :=
  let id := m.nextId
  { nextId := id + 1
    units := m.units ++ ["running"]
    projects := m.projects.map (fun scripts => scripts ++ [id]) }

/-- `AddCommand` of the v008 variant (part_008:352-359): the allocation is
inside the loop over projects, so each project gets its own fresh `Command`
with status `"running"`. -/
def addCommand_v008 (m : RunnerModel) : RunnerModel :=
  (List.range m.projects.length).foldl
    (fun acc i =>
      { nextId := acc.nextId + 1
        units := acc.units ++ ["running"]
        projects := acc.projects.set i ((acc.projects.getD i []) ++ [acc.nextId]) })
    m

/-- The statuses each project sees through its script list. -/
def projectStatuses (m : RunnerModel) : List (List String) :=
  m.projects.map (fun scripts => scripts.map (fun u => m.units.getD u ""))

/-- An empty registry with two projects and no commands yet. -/
def twoProjectInit : RunnerModel := { nextId := 0, units := [], projects := [[], []] }

/-- C7: in commandRunner.go, `AddCommand` on a two-project registry appends
the same unit id 0 to both projects (one shared `*Command` aliased into every
project's list), so marking that unit `"finished"` changes the status seen by
BOTH projects after a single outcome event; the v008 variant allocates
distinct units 0 and 1. -/
theorem C7_shared_unit :
    (addCommand_v1 twoProjectInit).projects = [[0], [0]] ∧
    projectStatuses { addCommand_v1 twoProjectInit with
      units := (addCommand_v1 twoProjectInit).units.set 0 "finished" }
      = [["finished"], ["finished"]] ∧
    (addCommand_v008 twoProjectInit).projects = [[0], [1]] ∧
    projectStatuses { addCommand_v008 twoProjectInit with
      units := (addCommand_v008 twoProjectInit).units.set 0 "finished" }
      = [["finished"], ["running"]] := by
  refine ⟨rfl, rfl, rfl, rfl⟩

/-- A one-project empty registry. -/
def oneProjectInit : RunnerModel := { nextId := 0, units := [], projects := [[]] }

/-- C5 counterexample: the status a unit holds from registration until its
outcome event is `"running"`, written by `AddCommand` itself — before any
spawn is attempted.  There is no `"pending"` status anywhere: a unit whose
spawn later fails has therefore held status `"running"`, refuting
"transitions directly from Pending to Failed without ever having status
Running". -/
theorem C5_counterexample :
    (addCommand_v008 oneProjectInit).units.getD 0 "" = "running" ∧
    (addCommand_v1 oneProjectInit).units.getD 0 "" = "running" := by
  constructor <;> rfl

/-- C5 amended: a spawn failure (pipe-creation or `Start` error, which is not
an `exec.ExitError`) is classified `"failed"`, and the unit's status goes
`"running"` (set at registration) → `"failed"`; the engine has no pending
status. -/
theorem C5_spawn_failure :
    classifyStatus (some .otherErr) = "failed" ∧
    (updateFinished [["running"]] ⟨0, 0, some .otherErr⟩).grid = [["failed"]] ∧
    (addCommand_v008 oneProjectInit).units = ["running"] := by
  refine ⟨rfl, ?_, rfl⟩
  rw [updateFinished_grid]
  rfl

/-! ## Claim C6: bounded live-output buffer -/

/-- The `commandOutputMessage` branch of the v008 `Update` (part_008:468-481):
append the line to the unit's live-output list, then drop the oldest lines so
that at most `maxLines = 50` are retained. -/
def appendLiveOutput (buf : List String) (line : String) : List String :=
  let buf' := buf ++ [line]
  let maxLines := 50
  if maxLines < buf'.length then buf'.drop (buf'.length - maxLines) else buf'

/-- The unit's live-output buffer after its whole line stream has been folded
through the handler, starting from the empty buffer the handler creates on
first use. -/
def liveOutputAfter (lines : List String) : List String :=
  lines.foldl appendLiveOutput []

theorem liveOutputAfter_eq_suffix (lines : List String) :
    liveOutputAfter lines = lines.drop (lines.length - 50) := by
  induction lines using List.reverseRecOn with
  | nil => rfl
  | append_singleton ls x ih =>
    have hstep : liveOutputAfter (ls ++ [x]) = appendLiveOutput (liveOutputAfter ls) x := by
      unfold liveOutputAfter
      rw [List.foldl_append]
      rfl
    rw [hstep, ih]
    simp only [appendLiveOutput]
    by_cases hbig : 50 ≤ ls.length
    · have hlen : (ls.drop (ls.length - 50)).length = 50 := by
        rw [List.length_drop]
        omega
      have hcond : 50 < (ls.drop (ls.length - 50) ++ [x]).length := by
        rw [List.length_append, hlen]
        simp
      rw [if_pos hcond]
      have hblen : (ls.drop (ls.length - 50) ++ [x]).length - 50 = 1 := by
        rw [List.length_append, hlen]
        simp
      rw [hblen]
      rw [List.drop_append_of_le_length (by rw [hlen]; omega)]
      rw [List.drop_drop]
      have hrlen : (ls ++ [x]).length - 50 = ls.length + 1 - 50 := by
        rw [List.length_append]
        rfl
      rw [hrlen]
      rw [List.drop_append_of_le_length (by omega)]
      have harith : ls.length - 50 + 1 = ls.length + 1 - 50 := by omega
      rw [harith]
    · have h0 : ls.length - 50 = 0 := by omega
      rw [h0, List.drop_zero]
      have hcond : ¬ 50 < (ls ++ [x]).length := by
        rw [List.length_append]
        simp only [List.length_singleton]
        omega
      rw [if_neg hcond]
      have hr0 : (ls ++ [x]).length - 50 = 0 := by
        rw [List.length_append]
        simp only [List.length_singleton]
        omega
      rw [hr0, List.drop_zero]

/-- C6: the unit's retained live-output buffer, after any sequence of output
events has been folded through the handler, holds at most 50 lines and is
exactly the most-recent-50 suffix of all the lines produced — the oldest
lines are dropped first, regardless of how many lines the process emits.
(This applies after every event: instantiate `lines` with the stream consumed
so far.) -/
theorem C6_bounded_buffer (lines : List String) :
    (liveOutputAfter lines).length ≤ 50 ∧
    liveOutputAfter lines = lines.drop (lines.length - 50) := by
  refine ⟨?_, liveOutputAfter_eq_suffix lines⟩
  rw [liveOutputAfter_eq_suffix lines, List.length_drop]
  omega

/-! ## Claim C4: the waitChan hand-off on cancellation

`runCommand` (commandRunner.go:156-184) coordinates the `c.Wait()` result and
the cancellation watcher through a single buffered channel of capacity 1:

* a watcher goroutine selects on `ctx.Done()`; on cancellation it SIGTERMs the
  process group, sleeps the 100 ms grace period, SIGKILLs the group, sends
  `ctx.Err()` into `waitChan` and falls off the end of the select;
* the main body blocks in `c.Wait()`, then sends its result into `waitChan`,
  then receives one value back as the final, reported error.

The interleavings of this protocol after a cancellation request, for a child
that ignores SIGTERM, are modelled as a transition system.  Program counters:
watcher 0 = at the select, 1 = SIGTERM sent, 2 = grace period over,
3 = SIGKILL sent, 4 = returned, 5 = received a value in the select's second
case and is about to re-send it; main 0 = blocked in `c.Wait()`, 1 = at
`waitChan <- errWait`, 2 = at `finalErr := <-waitChan`, 3 = outcome message
returned. -/

/-- A value travelling through `waitChan`. -/
inductive ChanVal where
  | ctxErr
  | waitErr
deriving DecidableEq, Repr

/-- A protocol state: the two goroutines' program counters, the channel buffer
(capacity 1), the value held by the watcher between its receive and its
re-send, and whether the child process has died. -/
structure KillRaceState where
  helperPc : Nat
  mainPc : Nat
  chan : List ChanVal
  helperHeld : Option ChanVal
  processDead : Bool
deriving DecidableEq, Repr

/-- All states reachable in one step, for a SIGTERM-ignoring child after the
context has been cancelled.  A send on the capacity-1 channel is enabled only
while the buffer is empty; a receive only while it is non-empty.  The
`processDead := true` step with no other change is `exec.CommandContext`'s own
context watcher killing the child. -/
def killRaceSuccs (s : KillRaceState) : List KillRaceState :=
  (if s.helperPc = 0 then [{ s with helperPc := 1 }] else []) ++
  (if s.helperPc = 0 ∧ s.chan ≠ [] then
      [{ s with helperPc := 5, helperHeld := s.chan.head?, chan := s.chan.tail }] else []) ++
  (if s.helperPc = 1 then [{ s with helperPc := 2 }] else []) ++
  (if s.helperPc = 2 then [{ s with helperPc := 3, processDead := true }] else []) ++
  (if s.helperPc = 3 ∧ s.chan.length < 1 then
      [{ s with helperPc := 4, chan := s.chan ++ [ChanVal.ctxErr] }] else []) ++
  (if s.helperPc = 5 ∧ s.chan.length < 1 then
      [{ s with helperPc := 4, chan := s.chan ++ s.helperHeld.toList }] else []) ++
  (if !s.processDead then [{ s with processDead := true }] else []) ++
  (if s.mainPc = 0 ∧ s.processDead then [{ s with mainPc := 1 }] else []) ++
  (if s.mainPc = 1 ∧ s.chan.length < 1 then
      [{ s with mainPc := 2, chan := s.chan ++ [ChanVal.waitErr] }] else []) ++
  (if s.mainPc = 2 ∧ s.chan ≠ [] then
      [{ s with mainPc := 3, chan := s.chan.tail }] else [])

/-- The protocol state at the instant of the cancellation request: both
goroutines at their initial point, buffer empty, child alive. -/
def killRaceInit : KillRaceState :=
  { helperPc := 0, mainPc := 0, chan := [], helperHeld := none, processDead := false }

/-- The state in which the watcher has returned after filling the buffer and
the main body stands at its send. -/
def killRaceStuck : KillRaceState :=
  { helperPc := 4, mainPc := 1, chan := [ChanVal.ctxErr], helperHeld := none, processDead := true }

/-- The schedule in which the watcher completes its whole cancellation branch
(SIGTERM, grace, SIGKILL, send) before the main body's send executes. -/
def killRaceTrace : List KillRaceState :=
  [ killRaceInit
  , { helperPc := 1, mainPc := 0, chan := [], helperHeld := none, processDead := false }
  , { helperPc := 2, mainPc := 0, chan := [], helperHeld := none, processDead := false }
  , { helperPc := 3, mainPc := 0, chan := [], helperHeld := none, processDead := true }
  , { helperPc := 4, mainPc := 0, chan := [ChanVal.ctxErr], helperHeld := none, processDead := true }
  , killRaceStuck ]

/-- C4: a reachable deadlock of the waitChan protocol.  Along a legal
interleaving after a bulk-cancel, the watcher fills the one-slot buffer with
`ctx.Err()` and exits; the main body, whose `c.Wait()` has returned, is then
blocked forever at `waitChan <- errWait`: the final state has no enabled
transition and the outcome message was never returned (main never reaches
pc 3).  The unit's terminal outcome is never delivered and `wg.Done` never
runs, contradicting the claim (and the code's own comment, lines 175-177,
which asserts the `ctx.Done()` case reads from `waitChan`; it only writes). -/
theorem C4_cancellation_deadlock :
    List.Chain' (fun a b => b ∈ killRaceSuccs a) killRaceTrace ∧
    killRaceTrace.head? = some killRaceInit ∧
    killRaceTrace.getLast? = some killRaceStuck ∧
    killRaceSuccs killRaceStuck = [] ∧
    killRaceStuck.mainPc ≠ 3 := by
  refine ⟨?_, rfl, rfl, by decide, by decide⟩
  simp only [killRaceTrace, List.chain'_cons, List.chain'_singleton, and_true]
  refine ⟨?_, ?_, ?_, ?_, ?_⟩ <;> decide

/-! ## Claim C8: stream capture -/

/-- One output-pump goroutine of the v008 `runCommand` (part_008:181-209):
scan the stream line by line, stop as soon as `ctx.Done()` is ready, otherwise
forward the line (to the unit's buffer and the program as a
`commandOutputMessage`).  `cancelled n` is whether the context is already
cancelled when the n-th line is handled. -/
def pumpLines (cancelled : Nat → Bool) : Nat → List String → List String
  | _, [] => []
  | n, l :: ls => if cancelled n then [] else l :: pumpLines cancelled (n + 1) ls

/-- v008 stream delivery: both the stdout pipe and the stderr pipe get their
own pump goroutine (part_008:164-209), so the delivered lines are the pumped
prefix of each stream. -/
def deliveredLines_v008 (cancelled : Nat → Bool) (stdoutLines stderrLines : List String) :
    List String × List String :=
  (pumpLines cancelled 0 stdoutLines, pumpLines cancelled 0 stderrLines)

/-- v1 stream delivery (commandRunner.go:138-150): `c.Stderr` is set to nil,
so every stderr line is discarded by the OS; the stdout pipe is wrapped in a
`bufio.Scanner` that is stored on the unit (`command.reader = scanner`) but
never scanned by any code in the repository, so no stdout line is delivered
either.  Both components are empty whatever the child writes. -/
def deliveredLines_v1 (stdoutLines stderrLines : List String) :
    List String × List String :=
  ([], [])

/-- C8 counterexample: in the commandRunner.go variant a child that writes
one line to each stream has neither line delivered — the stderr stream (and
in fact also stdout) is discarded, refuting "neither stream is discarded" for
that `runCommand`. -/
theorem C8_counterexample :
    "oops" ∉ (deliveredLines_v1 ["out"] ["oops"]).2 ∧
    "out" ∉ (deliveredLines_v1 ["out"] ["oops"]).1 := by
  constructor <;> simp [deliveredLines_v1]

/-- When the context is never cancelled a pump forwards every line, in
order. -/
theorem pumpLines_id (lines : List String) (n : Nat) :
    pumpLines (fun _ => false) n lines = lines := by
  induction lines generalizing n with
  | nil => rfl
  | cons l ls ih =>
    show (if false then [] else l :: pumpLines (fun _ => false) (n + 1) ls) = l :: ls
    rw [if_neg (by simp)]
    rw [ih]

/-- C8 amended: in the v008 `runCommand` both the standard-output and the
standard-error stream are pumped into the output sink, line-buffered and in
order, and absent cancellation no line of either stream is discarded; the
commandRunner.go variant delivers nothing (stderr nil, stdout scanner never
read). -/
theorem C8_streams (stdoutLines stderrLines : List String) :
    deliveredLines_v008 (fun _ => false) stdoutLines stderrLines
      = (stdoutLines, stderrLines) := by
  unfold deliveredLines_v008
  rw [pumpLines_id, pumpLines_id]

/-! ## Claim C9: registry construction -/

/-- `utils.File`: a discovered project (helpers.go:17-20), the directory path
modelled as its list of components. -/
structure File where
  name : String
  dir : List String
deriving DecidableEq, Repr

/-- The two ways `CreateCommandRunner` aborts the whole run before any unit
exists: `os.Getwd` failure (a panic) and, in v008 only, an empty discovery
result (error message plus `os.Exit(1)`). -/
inductive SetupAbort where
  | getwdPanic
  | noProjectsExit
deriving DecidableEq, Repr

/-- v008 `CreateCommandRunner` (part_008:289-333) reduced to its setup
decision, parameterised by the two external inputs: the working-directory
lookup result and the discovery result.  On zero projects it reports the
error once and exits; otherwise the initial registry pairs each discovered
project with an empty script list (no unit exists yet, so none has been
spawned). -/
def createCommandRunner_v008 (getwd : Option (List String)) (discovered : List File) :
    Except SetupAbort (List (File × List String)) :=
  match getwd with
  | none => .error .getwdPanic
  | some _ =>
      if discovered.length = 0 then .error .noProjectsExit
      else .ok (discovered.map (fun p => (p, [])))

/-- v1 `CreateCommandRunner` (commandRunner.go:262-299): same construction but
with NO zero-project check. -/
def createCommandRunner_v1 (getwd : Option (List String)) (discovered : List File) :
    Except SetupAbort (List (File × List String)) :=
  match getwd with
  | none => .error .getwdPanic
  | some _ => .ok (discovered.map (fun p => (p, [])))

/-- C9 counterexample: the commandRunner.go variant constructs the registry
from an empty discovery result without any abort — zero projects is NOT a
fatal setup error there, refuting the claim for that constructor. -/
theorem C9_counterexample :
    createCommandRunner_v1 (some ["work"]) [] = .ok [] := rfl

/-- C9 amended: in the v008 `CreateCommandRunner`, given the working-directory
lookup succeeds, the construction aborts if and only if discovery returned
zero projects, and otherwise yields a registry in which every project's
script list is empty (no unit spawned yet); a failed working-directory lookup
is a second abort condition (a panic) in both variants. -/
theorem C9_zero_projects (wd : List String) (discovered : List File) :
    (createCommandRunner_v008 (some wd) discovered = .error .noProjectsExit ↔ discovered = []) ∧
    (createCommandRunner_v008 (some wd) discovered = .ok (discovered.map (fun p => (p, [])))
      ↔ discovered ≠ []) ∧
    createCommandRunner_v008 none discovered = .error .getwdPanic := by
  refine ⟨?_, ?_, rfl⟩ <;> cases discovered with
  | nil => simp [createCommandRunner_v008]
  | cons p ps => simp [createCommandRunner_v008]

/-! ## Claim C10: project discovery (utils/helpers.go)

The filesystem is modelled as a tree of directories; each directory carries
the presence of its `composer.json` and `package.json` manifests and its
subdirectories (plain files are irrelevant to `GetAllProjects`, which skips
non-directories).  Paths are lists of components (`path.Join` is append). -/

/-- A directory: manifest presence plus named subdirectories. -/
inductive FSDir where
  | mk : Bool → Bool → List (String × FSDir) → FSDir

/-- `composer.json` exists in this directory. -/
def FSDir.hasComposer : FSDir → Bool
  | .mk c _ _ => c

/-- `package.json` exists in this directory. -/
def FSDir.hasPackage : FSDir → Bool
  | .mk _ p _ => p

/-- The subdirectories, as `os.ReadDir` lists them. -/
def FSDir.entries : FSDir → List (String × FSDir)
  | .mk _ _ es => es

/-- `utils.IsProject` (helpers.go:91-95): both manifests present. -/
def IsProject (d : FSDir) : Bool :=
  d.hasComposer && d.hasPackage

/-- `utils.BLACKLIST` (helpers.go:53). -/
def BLACKLIST : List String := ["node_modules", ".git", ".idea", "vendor"]

/-- `path.Base` on a component-list path. -/
def base (p : List String) : String :=
  p.getLast?.getD ""

theorem FSDir.sizeOf_entries_lt (d : FSDir) : sizeOf d.entries < sizeOf d := by
  cases d with
  | mk c p es =>
    simp [FSDir.entries]
    try omega

mutual

/-- `utils.GetAllProjects` (helpers.go:55-89): append the root itself when it
is a project, then walk the directory entries. -/
def GetAllProjects (dir : List String) (d : FSDir) (depth : Int) (level : Nat) : List File :=
  (if IsProject d then [{ name := base dir, dir := dir }] else []) ++
    scanEntries dir d.entries depth level
termination_by sizeOf d
decreasing_by
  exact FSDir.sizeOf_entries_lt d

/-- The body of the `for _, file := range files` loop of `GetAllProjects`:
a non-project subdirectory within the depth bound is recursed into unless its
name is blacklisted; otherwise a project subdirectory is appended unless the
depth bound forbids it. -/
def scanEntries (dir : List String) (es : List (String × FSDir)) (depth : Int) (level : Nat) :
    List File :=
  match es with
  | [] => []
  | (name, sub) :: rest =>
      (if ¬ IsProject sub = true ∧ (depth = -1 ∨ (level : Int) ≤ depth) then
        (if name ∉ BLACKLIST then GetAllProjects (dir ++ [name]) sub depth (level + 1) else [])
      else if depth ≠ -1 ∧ (level : Int) ≥ depth then []
      else [{ name := name, dir := dir ++ [name] }]) ++
      scanEntries dir rest depth level
termination_by sizeOf es
decreasing_by
  all_goals simp
  all_goals omega

end

mutual

/-- All directories of the tree, each with its absolute path. -/
def collectNodes (dir : List String) (d : FSDir) : List (List String × FSDir) :=
  (dir, d) :: collectChildren dir d.entries
termination_by sizeOf d
decreasing_by
  exact FSDir.sizeOf_entries_lt d

/-- All directories reachable through a list of entries. -/
def collectChildren (dir : List String) (es : List (String × FSDir)) :
    List (List String × FSDir) :=
  match es with
  | [] => []
  | (name, sub) :: rest => collectNodes (dir ++ [name]) sub ++ collectChildren dir rest
termination_by sizeOf es
decreasing_by
  all_goals simp
  all_goals omega

end

theorem GetAllProjects_unfold (dir : List String) (d : FSDir) (depth : Int) (level : Nat) :
    GetAllProjects dir d depth level =
      (if IsProject d then [{ name := base dir, dir := dir }] else []) ++
        scanEntries dir d.entries depth level := by
  simp only [GetAllProjects]

theorem scanEntries_nil (dir : List String) (depth : Int) (level : Nat) :
    scanEntries dir [] depth level = [] := by
  simp only [scanEntries]

theorem scanEntries_cons (dir : List String) (name : String) (sub : FSDir)
    (rest : List (String × FSDir)) (depth : Int) (level : Nat) :
    scanEntries dir ((name, sub) :: rest) depth level =
      (if ¬ IsProject sub = true ∧ (depth = -1 ∨ (level : Int) ≤ depth) then
        (if name ∉ BLACKLIST then GetAllProjects (dir ++ [name]) sub depth (level + 1) else [])
      else if depth ≠ -1 ∧ (level : Int) ≥ depth then []
      else [{ name := name, dir := dir ++ [name] }]) ++
      scanEntries dir rest depth level := by
  simp only [scanEntries]

theorem collectNodes_unfold (dir : List String) (d : FSDir) :
    collectNodes dir d = (dir, d) :: collectChildren dir d.entries := by
  simp only [collectNodes]

theorem collectChildren_nil (dir : List String) :
    collectChildren dir [] = [] := by
  simp only [collectChildren]

theorem collectChildren_cons (dir : List String) (name : String) (sub : FSDir)
    (rest : List (String × FSDir)) :
    collectChildren dir ((name, sub) :: rest) =
      collectNodes (dir ++ [name]) sub ++ collectChildren dir rest := by
  simp only [collectChildren]

/-- A project directory (both manifests) with no subdirectories. -/
def nestedProject : FSDir := .mk true true []

/-- The inner project `a`, itself containing the project `b`. -/
def projectA : FSDir := .mk true true [("b", nestedProject)]

/-- A root that is not a project, containing project `a`, which contains
project `b`. -/
def demoTree : FSDir := .mk false false [("a", projectA)]

/-- C10 counterexample: with unbounded depth, discovery over `demoTree` rooted
at `r` returns exactly `r/a`; the directory `r/a/b` is a directory of the tree
with BOTH manifests present, yet it is never returned, because the traversal
does not recurse into project directories — refuting the claimed "if and only
if". -/
theorem C10_counterexample :
    IsProject nestedProject = true ∧
    collectNodes ["r"] demoTree =
      [(["r"], demoTree), (["r", "a"], projectA), (["r", "a", "b"], nestedProject)] ∧
    GetAllProjects ["r"] demoTree (-1) 0 = [{ name := "a", dir := ["r", "a"] }] ∧
    ∀ f ∈ GetAllProjects ["r"] demoTree (-1) 0, f.dir ≠ ["r", "a", "b"] := by
  have hcollect : collectNodes ["r"] demoTree =
      [(["r"], demoTree), (["r", "a"], projectA), (["r", "a", "b"], nestedProject)] := by
    rw [collectNodes_unfold]
    show _ = _
    rw [show demoTree.entries = [("a", projectA)] from rfl]
    rw [collectChildren_cons, collectNodes_unfold]
    rw [show projectA.entries = [("b", nestedProject)] from rfl]
    rw [collectChildren_cons, collectNodes_unfold]
    rw [show nestedProject.entries = ([] : List (String × FSDir)) from rfl]
    simp [collectChildren_nil]
  have heval : GetAllProjects ["r"] demoTree (-1) 0 = [{ name := "a", dir := ["r", "a"] }] := by
    rw [GetAllProjects_unfold]
    rw [show demoTree.entries = [("a", projectA)] from rfl]
    rw [scanEntries_cons, scanEntries_nil]
    rw [if_neg (show ¬ IsProject demoTree = true by decide)]
    rw [if_neg (show ¬ (¬ IsProject projectA = true ∧ ((-1 : Int) = -1 ∨ ((0 : Nat) : Int) ≤ -1)) by
      simp [IsProject, projectA, FSDir.hasComposer, FSDir.hasPackage])]
    rw [if_neg (show ¬ ((-1 : Int) ≠ -1 ∧ ((0 : Nat) : Int) ≥ -1) by simp)]
    rfl
  refine ⟨rfl, hcollect, heval, ?_⟩
  rw [heval]
  intro f hf
  have hfeq : f = { name := "a", dir := ["r", "a"] } := by simpa using hf
  subst hfeq
  simp

theorem sizeOf_fst_lt (name : String) (sub : FSDir) (rest : List (String × FSDir)) :
    sizeOf sub < sizeOf ((name, sub) :: rest) := by
  simp
  try omega

theorem sizeOf_rest_lt (name : String) (sub : FSDir) (rest : List (String × FSDir)) :
    sizeOf rest < sizeOf ((name, sub) :: rest) := by
  simp
  try omega

theorem discovery_aux (n : Nat) :
    (∀ (d : FSDir), sizeOf d < n →
      ∀ (dir : List String) (depth : Int) (level : Nat) (f : File),
        f ∈ GetAllProjects dir d depth level →
        (∃ node, (f.dir, node) ∈ collectNodes dir d ∧ IsProject node = true) ∧
        (f.dir = dir ∨
          ∃ pre last, f.dir = dir ++ pre ++ [last] ∧ ∀ c ∈ pre, c ∉ BLACKLIST)) ∧
    (∀ (es : List (String × FSDir)), sizeOf es < n →
      ∀ (dir : List String) (depth : Int) (level : Nat) (f : File),
        f ∈ scanEntries dir es depth level →
        (∃ node, (f.dir, node) ∈ collectChildren dir es ∧ IsProject node = true) ∧
        (∃ pre last, f.dir = dir ++ pre ++ [last] ∧ ∀ c ∈ pre, c ∉ BLACKLIST)) := by
  induction n using Nat.strong_induction_on with
  | _ n ih =>
    constructor
    · intro d hd dir depth level f hf
      rw [GetAllProjects_unfold] at hf
      rcases List.mem_append.mp hf with hleft | hright
      · by_cases hproj : IsProject d = true
        · rw [if_pos hproj] at hleft
          have hfeq : f = { name := base dir, dir := dir } := by simpa using hleft
          subst hfeq
          refine ⟨⟨d, ?_, hproj⟩, Or.inl rfl⟩
          rw [collectNodes_unfold]
          exact List.mem_cons_self _ _
        · rw [if_neg hproj] at hleft
          exact absurd hleft (List.not_mem_nil f)
      · obtain ⟨⟨node, hmem, hproj⟩, hpth⟩ :=
          (ih (sizeOf d) hd).2 d.entries (FSDir.sizeOf_entries_lt d) dir depth level f hright
        refine ⟨⟨node, ?_, hproj⟩, Or.inr hpth⟩
        rw [collectNodes_unfold]
        exact List.mem_cons_of_mem _ hmem
    · intro es hes dir depth level f hf
      cases es with
      | nil =>
        rw [scanEntries_nil] at hf
        exact absurd hf (List.not_mem_nil f)
      | cons e rest =>
        obtain ⟨name, sub⟩ := e
        rw [scanEntries_cons] at hf
        rcases List.mem_append.mp hf with hhead | htail
        · by_cases hc1 : ¬ IsProject sub = true ∧ (depth = -1 ∨ (level : Int) ≤ depth)
          · rw [if_pos hc1] at hhead
            by_cases hb : name ∉ BLACKLIST
            · rw [if_pos hb] at hhead
              obtain ⟨⟨node, hmem, hproj⟩, hpth⟩ :=
                (ih (sizeOf ((name, sub) :: rest)) hes).1 sub (sizeOf_fst_lt name sub rest)
                  (dir ++ [name]) depth (level + 1) f hhead
              refine ⟨⟨node, ?_, hproj⟩, ?_⟩
              · rw [collectChildren_cons]
                exact List.mem_append_left _ hmem
              · rcases hpth with heq | ⟨pre, last, heq, hclean⟩
                · exact ⟨[], name, by simpa using heq, by simp⟩
                · refine ⟨name :: pre, last, ?_, ?_⟩
                  · rw [heq]
                    simp
                  · intro c hc
                    rcases List.mem_cons.mp hc with hcn | hcp
                    · rw [hcn]
                      exact hb
                    · exact hclean c hcp
            · rw [if_neg hb] at hhead
              exact absurd hhead (List.not_mem_nil f)
          · rw [if_neg hc1] at hhead
            by_cases hc2 : depth ≠ -1 ∧ (level : Int) ≥ depth
            · rw [if_pos hc2] at hhead
              exact absurd hhead (List.not_mem_nil f)
            · rw [if_neg hc2] at hhead
              have hfeq : f = { name := name, dir := dir ++ [name] } := by simpa using hhead
              subst hfeq
              have hproj : IsProject sub = true := by
                by_cases hp : IsProject sub = true
                · exact hp
                · exfalso
                  push_neg at hc1 hc2
                  have hd1 := hc1 hp
                  have hd2 := hc2 hd1.1
                  have hd3 := hd1.2
                  omega
              refine ⟨⟨sub, ?_, hproj⟩, ⟨[], name, by simp, by simp⟩⟩
              rw [collectChildren_cons]
              refine List.mem_append_left _ ?_
              rw [collectNodes_unfold]
              exact List.mem_cons_self _ _
        · obtain ⟨⟨node, hmem, hproj⟩, hpth⟩ :=
            (ih (sizeOf ((name, sub) :: rest)) hes).2 rest (sizeOf_rest_lt name sub rest)
              dir depth level f htail
          refine ⟨⟨node, ?_, hproj⟩, hpth⟩
          rw [collectChildren_cons]
          exact List.mem_append_right _ hmem

/-- C10 amended: every directory returned by `GetAllProjects` is a directory
of the scanned tree containing BOTH `composer.json` and `package.json` (so a
directory with only one manifest is never returned), and the traversal never
recurses into a blacklisted directory: every returned path extends the root
only through non-blacklisted intermediate components (only its final
component may be blacklisted, and then only as a directly-appended project).
The converse direction of the claimed "if and only if" fails: a directory
with both manifests that lies below another project directory, below a
blacklisted directory, or beyond the depth bound is not discovered (see the
counterexample). -/
theorem C10_discovery (dir : List String) (d : FSDir) (depth : Int) (level : Nat)
    (f : File) (hf : f ∈ GetAllProjects dir d depth level) :
    (∃ node, (f.dir, node) ∈ collectNodes dir d ∧ IsProject node = true) ∧
    (f.dir = dir ∨ ∃ pre last, f.dir = dir ++ pre ++ [last] ∧ ∀ c ∈ pre, c ∉ BLACKLIST) :=
  (discovery_aux (sizeOf d + 1)).1 d (Nat.lt_succ_self _) dir depth level f hf

/-- Witness for `C10_discovery`: the file `r/a` discovered in `demoTree`
resolves to the tree node `projectA`, which has both manifests, and its path
adds a single component to the root. -/
theorem C10_discovery_witness :
    (∃ node, ((["r", "a"] : List String), node) ∈ collectNodes ["r"] demoTree ∧
      IsProject node = true) ∧
    ((["r", "a"] : List String) = ["r"] ∨
      ∃ pre last, (["r", "a"] : List String) = ["r"] ++ pre ++ [last] ∧
        ∀ c ∈ pre, c ∉ BLACKLIST) :=
  C10_discovery ["r"] demoTree (-1) 0 { name := "a", dir := ["r", "a"] }
    (by
      have heval : GetAllProjects ["r"] demoTree (-1) 0
          = [{ name := "a", dir := ["r", "a"] }] := by
        rw [GetAllProjects_unfold]
        rw [show demoTree.entries = [("a", projectA)] from rfl]
        rw [scanEntries_cons, scanEntries_nil]
        rw [if_neg (show ¬ IsProject demoTree = true by decide)]
        rw [if_neg
          (show ¬ (¬ IsProject projectA = true ∧ ((-1 : Int) = -1 ∨ ((0 : Nat) : Int) ≤ -1)) by
            simp [IsProject, projectA, FSDir.hasComposer, FSDir.hasPackage])]
        rw [if_neg (show ¬ ((-1 : Int) ≠ -1 ∧ ((0 : Nat) : Int) ≥ -1) by simp)]
        rfl
      rw [heval]
      exact List.mem_singleton.mpr rfl)

end QK
